import Mathlib

/-!
Verification of the bounded cache (`Cache`) and configuration loader (`Config`)
from `src/test-files/lib.rs`.

The `HashMap<String, T>` inside `Cache` is modelled shallowly as an association
list whose iteration order is the list order: `keys().next()` is the key of the
head pair, `insert` overwrites in place or appends, `remove` drops the entry
with the given key.  Since a `HashMap` has unique keys, reachable cache states
have pairwise-distinct keys; theorems about arbitrary states take that
uniqueness as an explicit hypothesis where they need it.
-/

namespace Primordyn

/-- Models `HashMap::get` on the association-list representation: the value of
the first pair whose key matches, if any. -/
def lookup {T : Type} : List (String × T) → String → Option T
  | [], _ => none
  | (k', v) :: rest, k => if k' = k then some v else lookup rest k

/-- Models `HashMap::contains_key`. -/
def containsKey {T : Type} : List (String × T) → String → Bool
  | [], _ => false
  | (k', _) :: rest, k => if k' = k then true else containsKey rest k

/-- Models `HashMap::remove`: drops the entry with the given key (the first
matching pair; in a map with unique keys there is at most one). -/
def removeKey {T : Type} : List (String × T) → String → List (String × T)
  | [], _ => []
  | (k', v) :: rest, k => if k' = k then rest else (k', v) :: removeKey rest k

/-- Models the mutation done by `HashMap::insert`: overwrite the entry with the
given key when present, otherwise add a fresh entry. -/
def insertGo {T : Type} : List (String × T) → String → T → List (String × T)
  | [], k, v => [(k, v)]
  | (k', v') :: rest, k, v =>
      if k' = k then (k, v) :: rest else (k', v') :: insertGo rest k v

/-- Models the `Cache<T>` struct: the backing map and the fixed capacity. -/
structure Cache (T : Type) where
  data : List (String × T)
  capacity : Nat

/-- Models `Cache::new(capacity)`: an empty map with the given capacity. -/
def Cache.new (T : Type) (capacity : Nat) : Cache T :=
  ⟨[], capacity⟩

/-- The eviction step at the top of `Cache::insert`: when the map is at or
above capacity and the key is absent, remove the entry whose key
`self.data.keys().next()` yields — the head of the list — when the map is
nonempty (when it is empty, `keys().next()` is `None` and nothing happens). -/
def Cache.evicted {T : Type} (c : Cache T) (k : String) : List (String × T) :=
  if c.capacity ≤ c.data.length ∧ containsKey c.data k = false then
    match c.data with
    | [] => c.data
    | (k₀, _) :: _ => removeKey c.data k₀
  else c.data

/-- Models `Cache::insert`: the eviction step followed by `HashMap::insert`,
whose returned `Option` (the previous value in the post-eviction map) is the
second component. -/
def Cache.insert {T : Type} (c : Cache T) (k : String) (v : T) :
    Cache T × Option T :=
  (⟨insertGo (c.evicted k) k v, c.capacity⟩, lookup (c.evicted k) k)

/-- Models `Cache::get`. -/
def Cache.get {T : Type} (c : Cache T) (k : String) : Option T :=
  lookup c.data k

/-- Models `Cache::clear`: `HashMap::clear` empties the map; the capacity
field is untouched. -/
def Cache.clear {T : Type} (c : Cache T) : Cache T :=
  ⟨[], c.capacity⟩

/-- The number of stored entries, `HashMap::len`. -/
def Cache.len {T : Type} (c : Cache T) : Nat :=
  c.data.length

/-- The list of keys of the backing map. -/
def keys {T : Type} (l : List (String × T)) : List String :=
  l.map Prod.fst

/-- The public mutating/observing calls of `Cache`, for stating the
all-sequences invariant. -/
inductive Op (T : Type) where
  | insert (k : String) (v : T)
  | get (k : String)
  | clear

/-- State transition of one public call (`get` does not mutate). -/
def Cache.step {T : Type} (c : Cache T) : Op T → Cache T
  | .insert k v => (c.insert k v).1
  | .get _ => c
  | .clear => c.clear

/-- The state after running a sequence of public calls from `new(capacity)`. -/
def Cache.run (T : Type) (capacity : Nat) (ops : List (Op T)) : Cache T :=
  ops.foldl Cache.step (Cache.new T capacity)

/-! ### Configuration loading (`Config::from_env`) -/

/-- Models Rust's `str::parse` for an unsigned integer type, without the type
bound: an optional leading `+`, then one or more ASCII digits. -/
def parseNatStr (s : String) : Option Nat :=
  let cs :=
    match s.data with
    | '+' :: rest => rest
    | cs => cs
  if cs ≠ [] ∧ cs.all Char.isDigit then
    some (cs.foldl (fun acc c => acc * 10 + (c.toNat - 48)) 0)
  else none

/-- Models `str::parse::<u16>` (the type of `Config.port`): parse digits and
require the value to fit in 16 bits. -/
def parseU16 (s : String) : Option Nat :=
  match parseNatStr s with
  | some n => if n < 65536 then some n else none
  | none => none

/-- Models `str::parse::<usize>` (the type of `Config.max_connections`) on a
64-bit target: parse digits and require the value to fit in 64 bits. -/
def parseUsize (s : String) : Option Nat :=
  match parseNatStr s with
  | some n => if n < 18446744073709551616 then some n else none
  | none => none

/-- Models the `Config` struct (`port : u16` and `max_connections : usize`
become `Nat` with their ranges enforced at parse time). -/
structure Config where
  host : String
  port : Nat
  database_url : String
  max_connections : Nat

/-- Models `Config::from_env`.  The process environment is a partial map from
variable names to string values.  Mirrors the source order: `HOST` defaults to
"localhost", `PORT` defaults to "8080" and is parsed with `?`, `DATABASE_URL`
is required via `?`, `MAX_CONNECTIONS` defaults to "10" and is parsed with
`?`.  `Err` is modelled as `none`. -/
def Config.fromEnv (env : String → Option String) : Option Config :=
  (parseU16 ((env "PORT").getD "8080")).bind fun port =>
  (env "DATABASE_URL").bind fun database_url =>
  (parseUsize ((env "MAX_CONNECTIONS").getD "10")).bind fun max_connections =>
  some { host := (env "HOST").getD "localhost", port := port,
         database_url := database_url, max_connections := max_connections }

/-- A concrete environment with only `DATABASE_URL` set, for exercising
`Config.fromEnv` on its default path. -/
def envExample : String → Option String :=
  fun s => if s = "DATABASE_URL" then some "postgres://localhost/mydb" else none

/-! ### Helper lemmas about the association-list map operations -/

theorem lookup_insertGo_self {T : Type} (l : List (String × T)) (k : String)
    (v : T) : lookup (insertGo l k v) k = some v := by
  induction l with
  | nil => simp [insertGo, lookup]
  | cons p rest ih =>
    obtain ⟨k', v'⟩ := p
    by_cases h : k' = k
    · simp [insertGo, lookup, h]
    · simp [insertGo, lookup, h, ih]

theorem lookup_insertGo_ne {T : Type} (l : List (String × T)) (k j : String)
    (v : T) (h : j ≠ k) : lookup (insertGo l k v) j = lookup l j := by
  have hkj : ¬ k = j := fun hh => h hh.symm
  induction l with
  | nil => simp [insertGo, lookup, hkj]
  | cons p rest ih =>
    obtain ⟨k', v'⟩ := p
    by_cases hk : k' = k
    · subst hk
      simp [insertGo, lookup, hkj]
    · simp [insertGo, lookup, hk, ih]

theorem length_insertGo_of_contains {T : Type} (l : List (String × T))
    (k : String) (v : T) (h : containsKey l k = true) :
    (insertGo l k v).length = l.length := by
  induction l with
  | nil => simp [containsKey] at h
  | cons p rest ih =>
    obtain ⟨k', v'⟩ := p
    by_cases hk : k' = k
    · simp [insertGo, hk]
    · simp only [containsKey, if_neg hk] at h
      simp [insertGo, hk, ih h]

theorem length_insertGo_of_not_contains {T : Type} (l : List (String × T))
    (k : String) (v : T) (h : containsKey l k = false) :
    (insertGo l k v).length = l.length + 1 := by
  induction l with
  | nil => simp [insertGo]
  | cons p rest ih =>
    obtain ⟨k', v'⟩ := p
    by_cases hk : k' = k
    · simp [containsKey, hk] at h
    · simp only [containsKey, if_neg hk] at h
      simp [insertGo, hk, ih h]

theorem lookup_eq_none_of_not_contains {T : Type} (l : List (String × T))
    (k : String) (h : containsKey l k = false) : lookup l k = none := by
  induction l with
  | nil => simp [lookup]
  | cons p rest ih =>
    obtain ⟨k', v'⟩ := p
    by_cases hk : k' = k
    · simp [containsKey, hk] at h
    · simp only [containsKey, if_neg hk] at h
      simp [lookup, hk, ih h]

theorem containsKey_cons_tail {T : Type} (k₀ : String) (w : T)
    (rest : List (String × T)) (k : String)
    (h : containsKey ((k₀, w) :: rest) k = false) :
    containsKey rest k = false := by
  by_cases hk : k₀ = k
  · simp [containsKey, hk] at h
  · simpa [containsKey, hk] using h

theorem containsKey_iff_mem_keys {T : Type} (l : List (String × T))
    (k : String) : containsKey l k = true ↔ k ∈ keys l := by
  induction l with
  | nil => simp [containsKey, keys]
  | cons p rest ih =>
    obtain ⟨k', v'⟩ := p
    by_cases hk : k' = k
    · simp [containsKey, keys, hk]
    · have hkk : ¬ k = k' := fun hh => hk hh.symm
      simp only [containsKey, if_neg hk, keys, List.map_cons, List.mem_cons]
      rw [ih]
      simp [keys, hkk]

theorem removeKey_cons_self {T : Type} (k₀ : String) (w : T)
    (rest : List (String × T)) : removeKey ((k₀, w) :: rest) k₀ = rest := by
  simp [removeKey]

theorem lookup_isSome_iff_contains {T : Type} (l : List (String × T))
    (k : String) : (lookup l k).isSome = containsKey l k := by
  induction l with
  | nil => simp [lookup, containsKey]
  | cons p rest ih =>
    obtain ⟨k', v'⟩ := p
    by_cases hk : k' = k
    · simp [lookup, containsKey, hk]
    · simp [lookup, containsKey, hk, ih]

/-! ### Case characterizations of the eviction step -/

theorem evicted_of_not_trigger {T : Type} (c : Cache T) (k : String)
    (h : ¬ (c.capacity ≤ c.data.length ∧ containsKey c.data k = false)) :
    c.evicted k = c.data := by
  rw [Cache.evicted, if_neg h]

theorem evicted_of_contains {T : Type} (c : Cache T) (k : String)
    (h : containsKey c.data k = true) : c.evicted k = c.data :=
  evicted_of_not_trigger c k (fun hc => by simp [h] at hc)

theorem evicted_of_below {T : Type} (c : Cache T) (k : String)
    (h : c.data.length < c.capacity) : c.evicted k = c.data :=
  evicted_of_not_trigger c k (fun hc => absurd hc.1 (Nat.not_le_of_lt h))

theorem evicted_of_nil {T : Type} (c : Cache T) (k : String)
    (h : c.data = []) : c.evicted k = c.data := by
  rw [Cache.evicted]
  split
  · rw [h]
  · rfl

theorem evicted_of_trigger {T : Type} (c : Cache T) (k : String)
    (k₀ : String) (w : T) (rest : List (String × T))
    (hd : c.data = (k₀, w) :: rest)
    (hcap : c.capacity ≤ c.data.length)
    (habs : containsKey c.data k = false) :
    c.evicted k = rest := by
  rw [Cache.evicted, if_pos (And.intro hcap habs), hd]
  exact removeKey_cons_self k₀ w rest

theorem insert_fst_data {T : Type} (c : Cache T) (k : String) (v : T) :
    ((c.insert k v).1).data = insertGo (c.evicted k) k v := rfl

theorem insert_fst_capacity {T : Type} (c : Cache T) (k : String) (v : T) :
    ((c.insert k v).1).capacity = c.capacity := rfl

theorem insert_snd {T : Type} (c : Cache T) (k : String) (v : T) :
    (c.insert k v).2 = lookup (c.evicted k) k := rfl

/-- Core eviction behaviour of `Cache::insert`: on a nonempty map with unique
keys that is at or above capacity, inserting an absent key removes exactly one
existing entry (the head of the iteration order), keeps the entry count
unchanged, stores the new key, and leaves every other entry intact. -/
theorem insert_evict_core {T : Type} (c : Cache T) (k : String) (v : T)
    (hnd : (keys c.data).Nodup) (hcap : c.capacity ≤ c.len) (hne : 0 < c.len)
    (habs : containsKey c.data k = false) :
    ∃ victim, containsKey c.data victim = true ∧ victim ≠ k ∧
      ((c.insert k v).1).get victim = none ∧
      ((c.insert k v).1).len = c.len ∧
      ((c.insert k v).1).get k = some v ∧
      ∀ j, j ≠ k → j ≠ victim → ((c.insert k v).1).get j = c.get j := by
  rcases hd : c.data with _ | ⟨⟨k₀, w⟩, rest⟩
  · rw [Cache.len, hd] at hne
    simp at hne
  · have hk₀k : ¬ k₀ = k := by
      intro heq
      rw [hd] at habs
      simp [containsKey, heq] at habs
    have habs' : containsKey ((k₀, w) :: rest) k = false := hd ▸ habs
    have hrest_absk : containsKey rest k = false :=
      containsKey_cons_tail k₀ w rest k habs'
    have hev : c.evicted k = rest := evicted_of_trigger c k k₀ w rest hd hcap habs
    have hnd' : k₀ ∉ keys rest := by
      rw [hd] at hnd
      simp only [keys, List.map_cons, List.nodup_cons] at hnd
      simpa [keys] using hnd.1
    have hrest_k₀ : containsKey rest k₀ = false := by
      cases hcv : containsKey rest k₀ with
      | false => rfl
      | true => exact absurd ((containsKey_iff_mem_keys rest k₀).1 hcv) hnd'
    refine ⟨k₀, ?_, hk₀k, ?_, ?_, ?_, ?_⟩
    · show containsKey ((k₀, w) :: rest) k₀ = true
      simp [containsKey]
    · show lookup (insertGo (c.evicted k) k v) k₀ = none
      rw [hev, lookup_insertGo_ne rest k k₀ v hk₀k]
      exact lookup_eq_none_of_not_contains rest k₀ hrest_k₀
    · show (insertGo (c.evicted k) k v).length = c.len
      rw [hev, length_insertGo_of_not_contains rest k v hrest_absk,
        Cache.len, hd]
      simp
    · show lookup (insertGo (c.evicted k) k v) k = some v
      rw [hev]
      exact lookup_insertGo_self rest k v
    · intro j hjk hjk₀
      show lookup (insertGo (c.evicted k) k v) j = lookup c.data j
      rw [hev, lookup_insertGo_ne rest k j v hjk, hd]
      have hja : ¬ k₀ = j := fun hh => hjk₀ hh.symm
      simp [lookup, hja]

/-- One public call keeps the entry count at or below a positive capacity and
never changes the capacity field. -/
theorem step_preserves_bound {T : Type} (c : Cache T) (op : Op T)
    (hpos : 1 ≤ c.capacity) (hlen : c.len ≤ c.capacity) :
    (c.step op).len ≤ c.capacity ∧ (c.step op).capacity = c.capacity := by
  cases op with
  | get k => exact ⟨hlen, rfl⟩
  | clear => exact ⟨Nat.zero_le _, rfl⟩
  | insert k v =>
    refine ⟨?_, rfl⟩
    show ((c.insert k v).1).len ≤ c.capacity
    by_cases htrig : c.capacity ≤ c.data.length ∧ containsKey c.data k = false
    · rcases hd : c.data with _ | ⟨⟨k₀, w⟩, rest⟩
      · have : c.capacity ≤ 0 := by
          rw [hd] at htrig
          simpa using htrig.1
        omega
      · have hev : c.evicted k = rest :=
          evicted_of_trigger c k k₀ w rest hd htrig.1 htrig.2
        have hrest : containsKey rest k = false :=
          containsKey_cons_tail k₀ w rest k (hd ▸ htrig.2)
        show (insertGo (c.evicted k) k v).length ≤ c.capacity
        rw [hev, length_insertGo_of_not_contains rest k v hrest]
        have : c.len = rest.length + 1 := by
          rw [Cache.len, hd]
          simp
        omega
    · have hev : c.evicted k = c.data := evicted_of_not_trigger c k htrig
      show (insertGo (c.evicted k) k v).length ≤ c.capacity
      rw [hev]
      cases hck : containsKey c.data k with
      | true =>
        rw [length_insertGo_of_contains c.data k v hck]
        exact hlen
      | false =>
        rw [length_insertGo_of_not_contains c.data k v hck]
        have : ¬ c.capacity ≤ c.data.length := fun hc => htrig ⟨hc, hck⟩
        have hlt : c.data.length < c.capacity := Nat.lt_of_not_le this
        omega

/-- Running any sequence of public calls preserves the length bound and the
capacity field. -/
theorem run_bound_aux {T : Type} (ops : List (Op T)) :
    ∀ c : Cache T, 1 ≤ c.capacity → c.len ≤ c.capacity →
      (ops.foldl Cache.step c).len ≤ c.capacity ∧
      (ops.foldl Cache.step c).capacity = c.capacity := by
  induction ops with
  | nil => exact fun c _ h => ⟨h, rfl⟩
  | cons op rest ih =>
    intro c hpos hlen
    have hstep := step_preserves_bound c op hpos hlen
    have hrec := ih (c.step op) (hstep.2 ▸ hpos) (hstep.2 ▸ hstep.1)
    simp only [List.foldl_cons]
    exact ⟨hstep.2 ▸ hrec.1, hstep.2 ▸ hrec.2⟩

/-! ### Claim theorems -/

/-- C10: insert–get round trip: for every cache state, key and value,
immediately after `insert(k, v)` the call `get(k)` returns `Some(v)`; the
just-inserted key is never the eviction victim (eviction happens before the
insertion and only removes a pre-existing key), even at capacity 0. -/
theorem c10_insert_get_roundtrip (T : Type) (c : Cache T) (k : String)
    (v : T) : ((c.insert k v).1).get k = some v :=
  lookup_insertGo_self (c.evicted k) k v

/-- C8: `clear()` makes the entry count 0, `get` on every key (in particular
every previously-stored one) then returns empty, and the capacity field is
unchanged by the call. -/
theorem c8_clear_spec (T : Type) (c : Cache T) :
    (c.clear).len = 0 ∧ (∀ k, (c.clear).get k = none) ∧
    (c.clear).capacity = c.capacity :=
  ⟨rfl, fun _ => rfl, rfl⟩

/-- C5: `insert(k, v)` returns the value previously associated with `k` (via
`get`) if `k` was present and `None` otherwise; and in the concrete scenario
`new(2); insert("a",1); insert("a",2)` the second insert returns `Some(1)`,
the entry count is 1, and `get("a")` returns `Some(2)`. -/
theorem c5_insert_returns_previous :
    (∀ (T : Type) (c : Cache T) (k : String) (v : T),
      (c.insert k v).2 = c.get k) ∧
    ((((Cache.new Nat 2).insert "a" 1).1.insert "a" 2).2 = some 1 ∧
     ((((Cache.new Nat 2).insert "a" 1).1.insert "a" 2).1).len = 1 ∧
     ((((Cache.new Nat 2).insert "a" 1).1.insert "a" 2).1).get "a" = some 2) := by
  constructor
  · intro T c k v
    by_cases htrig : c.capacity ≤ c.data.length ∧ containsKey c.data k = false
    · rcases hd : c.data with _ | ⟨⟨k₀, w⟩, rest⟩
      · rw [insert_snd, evicted_of_nil c k hd]
        rfl
      · have hev := evicted_of_trigger c k k₀ w rest hd htrig.1 htrig.2
        have hrest : containsKey rest k = false :=
          containsKey_cons_tail k₀ w rest k (hd ▸ htrig.2)
        rw [insert_snd, hev, lookup_eq_none_of_not_contains rest k hrest,
          Cache.get, lookup_eq_none_of_not_contains c.data k htrig.2]
    · rw [insert_snd, evicted_of_not_trigger c k htrig]
      rfl
  · exact ⟨by decide, by decide, by decide⟩

/-- C4: inserting a key already present evicts no entry regardless of
capacity (every other key keeps its value), leaves the entry count unchanged,
and afterwards `get(k)` returns `v`. -/
theorem c4_insert_present (T : Type) (c : Cache T) (k : String) (v : T)
    (h : containsKey c.data k = true) :
    ((c.insert k v).1).len = c.len ∧
    ((c.insert k v).1).get k = some v ∧
    ∀ j, j ≠ k → ((c.insert k v).1).get j = c.get j := by
  have hev : c.evicted k = c.data := evicted_of_contains c k h
  refine ⟨?_, ?_, ?_⟩
  · show (insertGo (c.evicted k) k v).length = c.len
    rw [hev]
    exact length_insertGo_of_contains c.data k v h
  · show lookup (insertGo (c.evicted k) k v) k = some v
    rw [hev]
    exact lookup_insertGo_self c.data k v
  · intro j hj
    show lookup (insertGo (c.evicted k) k v) j = lookup c.data j
    rw [hev]
    exact lookup_insertGo_ne c.data k j v hj

/-- C4 witness: a concrete overwrite on a full cache of capacity 1. -/
theorem c4_witness :
    containsKey (Cache.mk [("a", (1 : Nat))] 1).data "a" = true ∧
    (((Cache.mk [("a", (1 : Nat))] 1).insert "a" 5).1).len =
      (Cache.mk [("a", (1 : Nat))] 1).len ∧
    (((Cache.mk [("a", (1 : Nat))] 1).insert "a" 5).1).get "a" = some 5 ∧
    ∀ j, j ≠ "a" →
      (((Cache.mk [("a", (1 : Nat))] 1).insert "a" 5).1).get j =
        (Cache.mk [("a", (1 : Nat))] 1).get j :=
  ⟨by decide, c4_insert_present Nat (Cache.mk [("a", 1)] 1) "a" 5 (by decide)⟩

/-- C7: inserting an absent key into a cache strictly below capacity
increases the entry count by exactly one and removes no existing entry
(every other key keeps its value). -/
theorem c7_insert_below_capacity (T : Type) (c : Cache T) (k : String)
    (v : T) (hlt : c.len < c.capacity) (habs : containsKey c.data k = false) :
    ((c.insert k v).1).len = c.len + 1 ∧
    ((c.insert k v).1).get k = some v ∧
    ∀ j, j ≠ k → ((c.insert k v).1).get j = c.get j := by
  have hev : c.evicted k = c.data := evicted_of_below c k hlt
  refine ⟨?_, ?_, ?_⟩
  · show (insertGo (c.evicted k) k v).length = c.len + 1
    rw [hev]
    exact length_insertGo_of_not_contains c.data k v habs
  · show lookup (insertGo (c.evicted k) k v) k = some v
    rw [hev]
    exact lookup_insertGo_self c.data k v
  · intro j hj
    show lookup (insertGo (c.evicted k) k v) j = lookup c.data j
    rw [hev]
    exact lookup_insertGo_ne c.data k j v hj

/-- C7 witness: a fresh key inserted into a cache holding 1 of 2 entries. -/
theorem c7_witness :
    (Cache.mk [("a", (1 : Nat))] 2).len < (Cache.mk [("a", (1 : Nat))] 2).capacity ∧
    containsKey (Cache.mk [("a", (1 : Nat))] 2).data "b" = false ∧
    (((Cache.mk [("a", (1 : Nat))] 2).insert "b" 7).1).len =
      (Cache.mk [("a", (1 : Nat))] 2).len + 1 ∧
    (((Cache.mk [("a", (1 : Nat))] 2).insert "b" 7).1).get "b" = some 7 ∧
    ∀ j, j ≠ "b" →
      (((Cache.mk [("a", (1 : Nat))] 2).insert "b" 7).1).get j =
        (Cache.mk [("a", (1 : Nat))] 2).get j :=
  ⟨by decide, by decide,
    c7_insert_below_capacity Nat (Cache.mk [("a", 1)] 2) "b" 7 (by decide)
      (by decide)⟩

/-- C1 counterexample: with capacity 0, the single call `insert("a", 1)` on
the fresh cache leaves 1 stored entry — the map was empty, `keys().next()`
yielded nothing to evict, and the insertion still happened — so
`|entries| <= capacity` fails for capacity 0. -/
theorem c1_counterexample :
    ¬ ((Cache.run Nat 0 [Op.insert "a" 1]).len ≤ 0) := by decide

/-- C1 (amended): for every positive capacity and every sequence of insert,
get, and clear calls starting from `new(capacity)`, the number of stored
entries is at most `capacity` after each public operation returns (every
prefix of a call sequence is itself a call sequence, so quantifying over all
sequences covers the state after each call). -/
theorem c1_bounded_entries (T : Type) (capacity : Nat) (hpos : 1 ≤ capacity)
    (ops : List (Op T)) : (Cache.run T capacity ops).len ≤ capacity :=
  (run_bound_aux ops (Cache.new T capacity) hpos (Nat.zero_le _)).1

/-- C1 witness: a capacity-2 cache stays within bound across three inserts. -/
theorem c1_witness :
    1 ≤ 2 ∧
    (Cache.run Nat 2
      [Op.insert "a" 1, Op.insert "b" 2, Op.insert "c" 3]).len ≤ 2 :=
  ⟨by decide,
    c1_bounded_entries Nat 2 (by decide)
      [Op.insert "a" 1, Op.insert "b" 2, Op.insert "c" 3]⟩

/-- C2 counterexample: after `new(0); insert("a", 1)` the entry count is not
0 — the insert on the empty capacity-0 cache finds no victim to evict and
still stores the entry. -/
theorem c2_counterexample :
    ¬ ((((Cache.new Nat 0).insert "a" 1).1).len = 0) := by decide

/-- C2 (amended): after `new(0)` followed by `insert("a", 1)` the entry count
is 1, not 0: the eviction step only removes an entry that already exists, so
on the empty map nothing is evicted and the new entry remains; a subsequent
insert of another fresh key evicts it, keeping the count at 1. -/
theorem c2_new0_insert_keeps_entry :
    (((Cache.new Nat 0).insert "a" 1).1).len = 1 ∧
    (((Cache.new Nat 0).insert "a" 1).1).get "a" = some 1 ∧
    ((((Cache.new Nat 0).insert "a" 1).1.insert "b" 2).1).len = 1 ∧
    ((((Cache.new Nat 0).insert "a" 1).1.insert "b" 2).1).get "b" = some 2 := by
  decide

/-- C3 counterexample: the fresh capacity-0 cache is at or above capacity and
does not contain "a", yet `insert("a", 1)` removes no entry — the count
increases by one, whereas removing exactly one existing entry before
inserting an absent key would leave the count unchanged. -/
theorem c3_counterexample :
    (Cache.new Nat 0).capacity ≤ (Cache.new Nat 0).len ∧
    containsKey (Cache.new Nat 0).data "a" = false ∧
    (((Cache.new Nat 0).insert "a" 1).1).len = (Cache.new Nat 0).len + 1 := by
  decide

/-- C3 (amended): for every cache state with unique keys whose map is
nonempty, and every absent key `k`, if the entry count is at or above
capacity then `insert(k, v)` removes exactly one existing entry before
inserting `k`: some already-present victim key distinct from `k` disappears,
the entry count is unchanged, `k` maps to `v`, and every other key keeps its
value. -/
theorem c3_evicts_exactly_one (T : Type) (c : Cache T) (k : String) (v : T)
    (hnd : (keys c.data).Nodup) (hcap : c.capacity ≤ c.len) (hne : 0 < c.len)
    (habs : containsKey c.data k = false) :
    ∃ victim, containsKey c.data victim = true ∧ victim ≠ k ∧
      ((c.insert k v).1).get victim = none ∧
      ((c.insert k v).1).len = c.len ∧
      ((c.insert k v).1).get k = some v ∧
      ∀ j, j ≠ k → j ≠ victim → ((c.insert k v).1).get j = c.get j :=
  insert_evict_core c k v hnd hcap hne habs

/-- C3 witness: a full capacity-2 cache receiving a third, fresh key. -/
theorem c3_witness :
    (keys (Cache.mk [("a", (1 : Nat)), ("b", 2)] 2).data).Nodup ∧
    (Cache.mk [("a", (1 : Nat)), ("b", 2)] 2).capacity ≤
      (Cache.mk [("a", (1 : Nat)), ("b", 2)] 2).len ∧
    containsKey (Cache.mk [("a", (1 : Nat)), ("b", 2)] 2).data "c" = false ∧
    (∃ victim,
      containsKey (Cache.mk [("a", (1 : Nat)), ("b", 2)] 2).data victim = true ∧
      victim ≠ "c" ∧
      (((Cache.mk [("a", (1 : Nat)), ("b", 2)] 2).insert "c" 3).1).get victim =
        none ∧
      (((Cache.mk [("a", (1 : Nat)), ("b", 2)] 2).insert "c" 3).1).len =
        (Cache.mk [("a", (1 : Nat)), ("b", 2)] 2).len ∧
      (((Cache.mk [("a", (1 : Nat)), ("b", 2)] 2).insert "c" 3).1).get "c" =
        some 3 ∧
      ∀ j, j ≠ "c" → j ≠ victim →
        (((Cache.mk [("a", (1 : Nat)), ("b", 2)] 2).insert "c" 3).1).get j =
          (Cache.mk [("a", (1 : Nat)), ("b", 2)] 2).get j) :=
  ⟨by decide, by decide, by decide,
    c3_evicts_exactly_one Nat (Cache.mk [("a", 1), ("b", 2)] 2) "c" 3
      (by decide) (by decide) (by decide) (by decide)⟩

/-- C6 counterexample: the fresh capacity-0 cache is at capacity (0 entries,
capacity 0) and does not contain "c", yet `insert("c", 3)` evicts nothing and
the entry count does not stay equal to the capacity. -/
theorem c6_counterexample :
    (Cache.new Nat 0).len = (Cache.new Nat 0).capacity ∧
    containsKey (Cache.new Nat 0).data "c" = false ∧
    ¬ ((((Cache.new Nat 0).insert "c" 3).1).len =
        (Cache.new Nat 0).capacity) := by
  decide

/-- C6 (amended): for every cache with unique keys at a positive capacity
(entry count equal to capacity ≥ 1) and every absent key `k`,
`insert(k, v)` evicts exactly one existing entry, the entry count stays equal
to the capacity, and `k` is retrievable via `get` afterward. -/
theorem c6_at_capacity_insert (T : Type) (c : Cache T) (k : String) (v : T)
    (hnd : (keys c.data).Nodup) (hat : c.len = c.capacity)
    (hpos : 1 ≤ c.capacity) (habs : containsKey c.data k = false) :
    ((c.insert k v).1).len = c.capacity ∧
    ((c.insert k v).1).get k = some v ∧
    ∃ victim, containsKey c.data victim = true ∧ victim ≠ k ∧
      ((c.insert k v).1).get victim = none := by
  have hcap : c.capacity ≤ c.len := Nat.le_of_eq hat.symm
  have hne : 0 < c.len := by omega
  obtain ⟨victim, hvc, hvk, hvnone, hlen, hgetk, _⟩ :=
    insert_evict_core c k v hnd hcap hne habs
  refine ⟨?_, hgetk, victim, hvc, hvk, hvnone⟩
  rw [hlen, hat]

/-- C6 witness: the concrete scenario `new(2); insert("a",1); insert("b",2);
insert("c",3)` — the entry count is 2, `get("c")` returns `Some(3)`, and
exactly one of `get("a")` and `get("b")` returns empty. -/
theorem c6_witness :
    (keys ((((Cache.new Nat 2).insert "a" 1).1.insert "b" 2).1).data).Nodup ∧
    ((((Cache.new Nat 2).insert "a" 1).1.insert "b" 2).1).len =
      ((((Cache.new Nat 2).insert "a" 1).1.insert "b" 2).1).capacity ∧
    (((((Cache.new Nat 2).insert "a" 1).1.insert "b" 2).1.insert "c" 3).1).len
      = 2 ∧
    (((((Cache.new Nat 2).insert "a" 1).1.insert "b" 2).1.insert "c" 3).1).get
      "c" = some 3 ∧
    (((((((Cache.new Nat 2).insert "a" 1).1.insert "b" 2).1.insert
        "c" 3).1).get "a" = none) ↔
      ¬ ((((((Cache.new Nat 2).insert "a" 1).1.insert "b" 2).1.insert
        "c" 3).1).get "b" = none)) :=
  ⟨by decide, by decide,
    (c6_at_capacity_insert Nat (((Cache.new Nat 2).insert "a" 1).1.insert
        "b" 2).1 "c" 3 (by decide) (by decide) (by decide) (by decide)).1,
    (c6_at_capacity_insert Nat (((Cache.new Nat 2).insert "a" 1).1.insert
        "b" 2).1 "c" 3 (by decide) (by decide) (by decide) (by decide)).2.1,
    by decide⟩

/-- C9: `Config::from_env` fails exactly when `DATABASE_URL` is absent or
`PORT` (resp. `MAX_CONNECTIONS`) is present but does not parse as a `u16`
(resp. `usize`); and when `HOST`, `PORT`, and `MAX_CONNECTIONS` are all
absent while `DATABASE_URL` is set, it succeeds with the defaults
`"localhost"`, 8080, and 10 rather than failing. -/
theorem c9_fromEnv_spec (env : String → Option String) :
    (Config.fromEnv env = none ↔
      env "DATABASE_URL" = none ∨
      (∃ s, env "PORT" = some s ∧ parseU16 s = none) ∨
      (∃ s, env "MAX_CONNECTIONS" = some s ∧ parseUsize s = none)) ∧
    (env "HOST" = none → env "PORT" = none → env "MAX_CONNECTIONS" = none →
      ∀ u, env "DATABASE_URL" = some u →
        Config.fromEnv env = some ⟨"localhost", 8080, u, 10⟩) := by
  have e1 : parseU16 "8080" = some 8080 := by decide
  have e2 : parseUsize "10" = some 10 := by decide
  constructor
  · rcases hP : env "PORT" with _ | sP
    · have hgd : (env "PORT").getD "8080" = "8080" := by rw [hP]; rfl
      rcases hD : env "DATABASE_URL" with _ | u
      · simp [Config.fromEnv, hgd, e1, hD, hP]
      · rcases hM : env "MAX_CONNECTIONS" with _ | sM
        · have hgm : (env "MAX_CONNECTIONS").getD "10" = "10" := by rw [hM]; rfl
          simp [Config.fromEnv, hgd, e1, hD, hM, hgm, e2, hP]
        · have hgm : (env "MAX_CONNECTIONS").getD "10" = sM := by rw [hM]; rfl
          rcases hpm : parseUsize sM with _ | m
          · simp [Config.fromEnv, hgd, e1, hD, hM, hgm, hpm, hP]
          · simp [Config.fromEnv, hgd, e1, hD, hM, hgm, hpm, hP]
    · have hgd : (env "PORT").getD "8080" = sP := by rw [hP]; rfl
      rcases hpp : parseU16 sP with _ | p
      · simp [Config.fromEnv, hgd, hpp, hP]
      · rcases hD : env "DATABASE_URL" with _ | u
        · simp [Config.fromEnv, hgd, hpp, hP, hD]
        · rcases hM : env "MAX_CONNECTIONS" with _ | sM
          · have hgm : (env "MAX_CONNECTIONS").getD "10" = "10" := by
              rw [hM]; rfl
            simp [Config.fromEnv, hgd, hpp, hP, hD, hM, hgm, e2]
          · have hgm : (env "MAX_CONNECTIONS").getD "10" = sM := by
              rw [hM]; rfl
            rcases hpm : parseUsize sM with _ | m
            · simp [Config.fromEnv, hgd, hpp, hP, hD, hM, hgm, hpm]
            · simp [Config.fromEnv, hgd, hpp, hP, hD, hM, hgm, hpm]
  · intro hH hP hM u hD
    simp [Config.fromEnv, hH, hP, hM, hD, e1, e2]

/-- C9 witness: an environment carrying only `DATABASE_URL` loads
successfully with every default filled in. -/
theorem c9_witness :
    envExample "HOST" = none ∧ envExample "PORT" = none ∧
    envExample "MAX_CONNECTIONS" = none ∧
    envExample "DATABASE_URL" = some "postgres://localhost/mydb" ∧
    Config.fromEnv envExample =
      some ⟨"localhost", 8080, "postgres://localhost/mydb", 10⟩ :=
  ⟨by decide, by decide, by decide, by decide,
    (c9_fromEnv_spec envExample).2 (by decide) (by decide) (by decide)
      "postgres://localhost/mydb" (by decide)⟩

end Primordyn
